import Mathlib

/-!
Verification development for the pdftoqa backend pipeline
(`Backend/app/routers/pdf.py`, `Backend/app/services/{pdf,text,qa}_service.py`).

The Python code is shallowly embedded: pure string/list manipulation is
translated function-for-function; the external collaborators (HTTP client,
OCR engine, database session) are modelled as explicit parameters and an
explicit list of database events; exceptions are modelled with `Except`.
Python `str` values are modelled as Lean `String`, indexed by codepoint via
`List Char`.
-/

/-- Python's whitespace set for `str.split()` / `str.strip()` / regex `\s`
(restricted to the ASCII whitespace characters, which are the only ones the
pipeline's texts contain). -/
def isWsB (c : Char) : Bool :=
  c == ' ' || c == '\t' || c == '\n' || c == '\r' || c == '\x0b' || c == '\x0c'

/-- Python `str.strip()` on a codepoint list: drop whitespace from both ends. -/
def pyStripChars (l : List Char) : List Char :=
  ((l.dropWhile isWsB).reverse.dropWhile isWsB).reverse

/-- Python `str.strip()`. -/
def pyStrip (s : String) : String := (pyStripChars s.toList).asString

/-- Python `str.find(c)`: index of the first occurrence of `c`, `-1` if absent. -/
def pyFind (s : String) (c : Char) : Int :=
  match s.toList.findIdx? (fun d => d == c) with
  | some i => Int.ofNat i
  | none => -1

/-- Python `str.rfind(c)`: index of the last occurrence of `c`, `-1` if absent. -/
def pyRfind (s : String) (c : Char) : Int :=
  match s.toList.reverse.findIdx? (fun d => d == c) with
  | some i => Int.ofNat (s.toList.length - 1 - i)
  | none => -1

/-- Python slice `s[a:b]` (codepoint indices, `b` exclusive). -/
def pySlice (s : String) (a b : Nat) : String :=
  ((s.toList.drop a).take (b - a)).asString

/-- A (heading, content) chunk as produced by `TextService` (`text_service.py`). -/
structure Chunk where
  heading : String
  content : String
deriving DecidableEq, Repr

/-- The mutable document row of `app/models/pdf.py` restricted to the fields
the pipeline reads and writes: `status`, `progress`, `error`. -/
structure PdfDoc where
  status : String
  progress : Nat
  error : Option String
deriving DecidableEq, Repr

/-- A raw Q&A dict as decoded from the model's JSON reply. -/
structure QARaw where
  question : String
  answer : String
  type : String
deriving DecidableEq, Repr

/-- A Q&A pair after the provider stamps the section heading
(`pair["section"] = section_heading` in `qa_service.py`). -/
structure QAPairD where
  question : String
  answer : String
  type : String
  sectionHeading : String
deriving DecidableEq, Repr

/-- A database write performed by the generation stage: a status/progress
commit or one Q&A pair insert (`db.add(db_qa)`). -/
inductive DBEvent where
  | statusWrite (status : String) (progress : Nat)
  | appendPair (pair : QAPairD)
deriving DecidableEq, Repr

/-- The `context` dict passed to `generate_qa_pairs`
(`{"heading": chunk["heading"]}` in `qa_service.py`). -/
structure Ctx where
  heading : String
deriving DecidableEq, Repr

/-- `context.get("heading", "Text") if context else "Text"` in `qa_service.py`. -/
def sectionOf (context : Option Ctx) : String :=
  match context with
  | some c => c.heading
  | none => "Text"

/-- The degraded pair both backends return from their `except` handler:
`[{"question": "Error generating Q&A", "answer": f"API error: {e}",
"type": "error", "section": section_heading}]`. -/
def degradedPair (msg sh : String) : QAPairD :=
  { question := "Error generating Q&A", answer := "API error: " ++ msg
    type := "error", sectionHeading := sh }

/-- `pair["section"] = section_heading`: stamp the heading context onto a
decoded pair. -/
def stampSection (sh : String) (p : QARaw) : QAPairD :=
  { question := p.question, answer := p.answer, type := p.type, sectionHeading := sh }

/-! ### Model of `json.loads`

`json.loads` is Python standard library, external to the repository.  It is
modelled here restricted to the reply shape the providers expect: a JSON
array of flat objects with string values (no escape sequences), which is
what the prompt demands of the model.  Any other input is a parse error; the
error message abstracts the library's diagnostic text. -/

def skipWsJ (l : List Char) : List Char := l.dropWhile isWsB

/-- Parse one JSON string literal (no escapes): `"..."`. -/
def parseJStr : List Char → Option (String × List Char)
  | '"' :: rest =>
    let content := rest.takeWhile (fun c => c != '"')
    (match rest.drop content.length with
     | '"' :: rest2 => some (content.asString, rest2)
     | _ => none)
  | _ => none

/-- Parse the members of a JSON object after the opening brace,
as `"key": "value"` pairs. -/
def parseJMembers : Nat → List Char → Option (List (String × String) × List Char)
  | 0, _ => none
  | fuel+1, l =>
    match parseJStr (skipWsJ l) with
    | none => none
    | some (k, r1) =>
      match skipWsJ r1 with
      | ':' :: r2 =>
        (match parseJStr (skipWsJ r2) with
         | none => none
         | some (v, r3) =>
           match skipWsJ r3 with
           | ',' :: r4 => (parseJMembers fuel r4).map (fun p => ((k, v) :: p.1, p.2))
           | '}' :: r4 => some ([(k, v)], r4)
           | _ => none)
      | _ => none

/-- Parse one JSON object. -/
def parseJObj (fuel : Nat) (l : List Char) : Option (List (String × String) × List Char) :=
  match skipWsJ l with
  | '{' :: r =>
    (match skipWsJ r with
     | '}' :: r2 => some ([], r2)
     | _ => parseJMembers fuel r)
  | _ => none

/-- Parse the elements of a JSON array after the opening bracket. -/
def parseJElems : Nat → List Char → Option (List (List (String × String)) × List Char)
  | 0, _ => none
  | fuel+1, l =>
    match parseJObj fuel l with
    | none => none
    | some (obj, r) =>
      match skipWsJ r with
      | ',' :: r2 => (parseJElems fuel r2).map (fun p => (obj :: p.1, p.2))
      | ']' :: r2 => some ([obj], r2)
      | _ => none

/-- Build a `QARaw` from a decoded object's key/value pairs. -/
def objToQA (ms : List (String × String)) : QARaw :=
  { question := ((ms.lookup "question").getD "")
    answer := ((ms.lookup "answer").getD "")
    type := ((ms.lookup "type").getD "") }

/-- Model of `json.loads` on the provider reply shape (see section comment). -/
def jsonLoads (s : String) : Except String (List QARaw) :=
  match skipWsJ s.toList with
  | '[' :: r =>
    (match skipWsJ r with
     | ']' :: r2 =>
       if skipWsJ r2 = [] then Except.ok [] else Except.error "Extra data"
     | _ =>
       match parseJElems (s.length + 1) r with
       | some (objs, rest) =>
         if skipWsJ rest = [] then Except.ok (objs.map objToQA)
         else Except.error "Extra data"
       | none => Except.error "Expecting value")
  | _ => Except.error "Expecting value"

/-! ### The generation provider (`ModelProvider` in `qa_service.py`)

The HTTP exchange is external: each call's outcome is a parameter.  For the
hosted backend the outcome on success is the response body's `content`
array; for the local backend it is the body's `response` string.  An `exn`
outcome stands for any exception raised while making the request, checking
the HTTP status or decoding the response body. -/

/-- One tagged block of the hosted API's `content` array. -/
structure ContentBlock where
  type : String
  text : String
deriving DecidableEq, Repr

/-- `ModelProvider._generate_with_claude`.  `apiKey` models
`os.getenv("ANTHROPIC_API_KEY")`; `outcome` models the `httpx` exchange.
The missing-key `ValueError` is raised before the `try` block, so it
propagates (`Except.error`); every exception inside the `try` is caught and
turned into the degraded pair. -/
def generateWithClaude (apiKey : Option String)
    (outcome : Except String (List ContentBlock))
    (textChunk : String) (context : Option Ctx) : Except String (List QAPairD) :=
  match apiKey with
  | none => Except.error "ANTHROPIC_API_KEY not set in environment"
  | some _ =>
    let sh := sectionOf context
    match outcome with
    | Except.error e => Except.ok [degradedPair e sh]
    | Except.ok content =>
      let textContent := ((content.find? (fun b => b.type == "text")).map
        ContentBlock.text).getD "[]"
      match jsonLoads textContent with
      | Except.error e => Except.ok [degradedPair e sh]
      | Except.ok pairs => Except.ok (pairs.map (stampSection sh))

/-- `ModelProvider._generate_with_ollama`.  `outcome` models the `httpx`
exchange; on success it carries `result.get("response", "[]")`.  The
`json_start`/`json_end` span extraction and the `ValueError` for a missing
span are inside the `try`, so every failure becomes the degraded pair. -/
def generateWithOllama (outcome : Except String String)
    (textChunk : String) (context : Option Ctx) : Except String (List QAPairD) :=
  let sh := sectionOf context
  match outcome with
  | Except.error e => Except.ok [degradedPair e sh]
  | Except.ok generation =>
    let jsonStart := pyFind generation '['
    let jsonEnd := pyRfind generation ']' + 1
    if jsonStart ≥ 0 ∧ jsonEnd > jsonStart then
      match jsonLoads (pySlice generation jsonStart.toNat jsonEnd.toNat) with
      | Except.error e => Except.ok [degradedPair e sh]
      | Except.ok pairs => Except.ok (pairs.map (stampSection sh))
    else
      Except.ok [degradedPair "Could not find valid JSON in response" sh]

/-- Configuration and per-call HTTP outcomes for one pipeline run: the
provider name, the credential, and the outcome of the `i`-th chunk's
provider call for each backend. -/
structure GenEnv where
  provider : String
  apiKey : Option String
  claudeOut : Nat → Except String (List ContentBlock)
  ollamaOut : Nat → Except String String

/-- `ModelProvider.generate_qa_pairs`: dispatch on the provider name. -/
def generate_qa_pairs (env : GenEnv) (i : Nat) (textChunk : String)
    (context : Option Ctx) : Except String (List QAPairD) :=
  if env.provider = "claude" then
    generateWithClaude env.apiKey (env.claudeOut i) textChunk context
  else if env.provider = "ollama" then
    generateWithOllama (env.ollamaOut i) textChunk context
  else
    Except.error ("Unsupported provider: " ++ env.provider)

/-! ### The generation loop (`QAService.generate_qa_from_chunks`) -/

/-- The status string `f"analyzing_chunk_{i+1}_of_{total}"` committed for
chunk index `i` (0-based): the rendering of `Generating(i+1, total)`. -/
def generatingStatus (i total : Nat) : String :=
  "analyzing_chunk_" ++ toString (i + 1) ++ "_of_" ++ toString total

/-- The body of `generate_qa_from_chunks`: iterate the chunks with index `i`,
rechecking cancellation at each chunk boundary, committing the
`analyzing_chunk_{i+1}_of_{total}` status and the `50 + int((i/total)*40)`
progress before the provider call, and inserting every returned pair.
After the last chunk the status is set to `completed`, progress `100`.
Returns the updated document, the list of database writes in order, and
either the accumulated pairs or the propagated exception. -/
def qaLoop (env : GenEnv) (total : Nat) :
    List Chunk → Nat → PdfDoc → PdfDoc × List DBEvent × Except String (List QAPairD)
  | [], _, d =>
    let d2 := { d with status := "completed", progress := 100 }
    (d2, [DBEvent.statusWrite "completed" 100], Except.ok [])
  | c :: cs, i, d =>
    if d.status = "canceled" then (d, [], Except.ok [])
    else
      let st := generatingStatus i total
      let pr := 50 + (i * 40) / total
      let d2 := { d with status := st, progress := pr }
      match generate_qa_pairs env i c.content (some { heading := c.heading }) with
      | Except.error m => (d2, [DBEvent.statusWrite st pr], Except.error m)
      | Except.ok pairs =>
        let rest := qaLoop env total cs (i + 1) d2
        (rest.1,
         DBEvent.statusWrite st pr :: (pairs.map DBEvent.appendPair ++ rest.2.1),
         (rest.2.2).map (fun acc => pairs ++ acc))

/-- `QAService.generate_qa_from_chunks` (the document is assumed to exist;
a missing id raises before any write and is outside every claim). -/
def generate_qa_from_chunks (env : GenEnv) (chunks : List Chunk) (d : PdfDoc) :
    PdfDoc × List DBEvent × Except String (List QAPairD) :=
  qaLoop env chunks.length chunks 0 d

/-! ### The cancellation endpoint (`cancel_pdf_processing` in `routers/pdf.py`) -/

/-- The response model `PDFStatus` as returned by the router. -/
structure PDFStatusResp where
  status : String
  progress : Nat
  message : String
deriving DecidableEq, Repr

/-- `cancel_pdf_processing` on an existing document: reject with HTTP 400
unless the status is in the literal allow-list, otherwise set status
`canceled` (the persisted `progress` field is not written) and answer with a
response whose progress field is `0`. -/
def cancel_pdf_processing (d : PdfDoc) : Except Nat (PdfDoc × PDFStatusResp) :=
  if ¬ (["processing", "uploaded", "extracting", "analyzing"].contains d.status) then
    Except.error 400
  else
    let d2 := { d with status := "canceled"
                       error := some "Processing was canceled by the user" }
    Except.ok (d2, { status := d2.status, progress := 0
                     message := "PDF processing has been canceled" })

/-! ### The heading regex (`chunk_by_headings` in `text_service.py`)

`chunk_by_headings` scans the text with `re.finditer` over the alternation
of three patterns (in this preference order, each with its own
`(?:\n|^)` lead-in):

1. `(?:\n|^)#+\s+(.+?)(?:\n|$)`
2. `(?:\n|^)(?:CHAPTER|Section)\s+\d+[.:]\s*(.+?)(?:\n|$)`
3. `(?:\n|^)(?:[A-Z][A-Za-z\s]+)(?:\n|$)`

The matcher below hand-compiles exactly these patterns with Python `re`
semantics (no `MULTILINE`, no `DOTALL`): `^` only at position 0, `.` matches
anything but `\n`, greedy quantifiers backtrack from longest to shortest,
`+?` from shortest to longest, alternatives tried left to right,
`finditer` scans leftmost and resumes after each match's end. -/

/-- `[A-Z]` (ASCII). -/
def isUpperAZ (c : Char) : Bool := 'A' ≤ c && c ≤ 'Z'

/-- `[A-Za-z]` (ASCII). -/
def isAlphaAZ (c : Char) : Bool := ('A' ≤ c && c ≤ 'Z') || ('a' ≤ c && c ≤ 'z')

/-- `[0-9]` for `\d` (ASCII). -/
def isDigit09 (c : Char) : Bool := '0' ≤ c && c ≤ '9'

/-- The class `[A-Za-z\s]` of pattern 3. -/
def isP3Class (c : Char) : Bool := isAlphaAZ c || isWsB c

/-- Length of the maximal prefix of `l` satisfying `f`. -/
def runLen (f : Char → Bool) (l : List Char) : Nat := (l.takeWhile f).length

/-- `(.+?)(?:\n|$)` on the suffix `l` (which ends where the whole text
ends): the lazy dot-run must stop at the first `\n` after at least one
character, consuming it, or at the end of the string.  Returns the number of
characters consumed. -/
def lazyDotToEnd (l : List Char) : Option Nat :=
  let r := runLen (fun c => c != '\n') l
  if r = 0 then none
  else if r < l.length then some (r + 1)
  else some r

/-- `\s+` (greedy, backtracking from `k` whitespace characters down to 1)
followed by `(.+?)(?:\n|$)`, on `l1`. -/
def tryWsThenLazy (l1 : List Char) : Nat → Option Nat
  | 0 => none
  | k+1 =>
    match lazyDotToEnd (l1.drop (k + 1)) with
    | some j => some ((k + 1) + j)
    | none => tryWsThenLazy l1 k

/-- `\s*` (greedy, backtracking from `k` down to 0) followed by
`(.+?)(?:\n|$)`, on `l3`. -/
def tryWsStarThenLazy (l3 : List Char) : Nat → Option Nat
  | 0 => lazyDotToEnd l3
  | k+1 =>
    match lazyDotToEnd (l3.drop (k + 1)) with
    | some j => some ((k + 1) + j)
    | none => tryWsStarThenLazy l3 k

/-- Pattern 1 after its lead-in: `#+\s+(.+?)(?:\n|$)`.  `#+` and the
following `\s+` never profitably backtrack against each other (`#` is not
whitespace), so both take their maximal runs; the `\s+`/lazy-dot boundary
does backtrack. -/
def matchP1Body (l : List Char) : Option Nat :=
  let nh := runLen (fun c => c == '#') l
  if nh = 0 then none
  else
    let l1 := l.drop nh
    let m := runLen isWsB l1
    if m = 0 then none
    else (tryWsThenLazy l1 m).map (fun j => nh + j)

/-- Pattern 2 after its lead-in:
`(?:CHAPTER|Section)\s+\d+[.:]\s*(.+?)(?:\n|$)`.  After the literal, the
`\s+` cannot backtrack (a shorter run leaves a whitespace character where
`\d` is required) and `\d+` cannot backtrack (a shorter run leaves a digit
where `[.:]` is required); `\s*` before the lazy dot does backtrack. -/
def matchP2Body (l : List Char) : Option Nat :=
  let lit : Option Nat :=
    if l.take 7 = "CHAPTER".toList then some 7
    else if l.take 7 = "Section".toList then some 7
    else none
  match lit with
  | none => none
  | some n =>
    let l1 := l.drop n
    let m := runLen isWsB l1
    if m = 0 then none
    else
      let l2 := l1.drop m
      let dn := runLen isDigit09 l2
      if dn = 0 then none
      else
        match l2.drop dn with
        | c :: _ =>
          if c == '.' || c == ':' then
            let l3 := l2.drop (dn + 1)
            let m2 := runLen isWsB l3
            (tryWsStarThenLazy l3 m2).map (fun j => n + m + dn + 1 + j)
          else none
        | [] => none

/-- The greedy run `[A-Za-z\s]+` followed by `(?:\n|$)` on `l1`, backtracking
from `k` class characters down to 1: accept the largest `k` whose next
character is `\n` (consumed) or which reaches the end of the string. -/
def tryClassRun (l1 : List Char) : Nat → Option Nat
  | 0 => none
  | k+1 =>
    if l1.get? (k + 1) = some '\n' then some (k + 2)
    else if k + 1 = l1.length then some (k + 1)
    else tryClassRun l1 k

/-- Pattern 3 after its lead-in: `[A-Z][A-Za-z\s]+(?:\n|$)`. -/
def matchP3Body (l : List Char) : Option Nat :=
  match l with
  | [] => none
  | c :: rest =>
    if isUpperAZ c then
      let m := runLen isP3Class rest
      if m = 0 then none
      else (tryClassRun rest m).map (fun j => 1 + j)
    else none

/-- The `(?:\n|^)` lead-in at position `p`: candidate consumed widths in
preference order (`\n` before `^`; `^` only matches at position 0). -/
def nlStartCands (text : List Char) (p : Nat) : List Nat :=
  (if text.get? p = some '\n' then [1] else []) ++ (if p = 0 then [0] else [])

/-- Try one alternative (lead-in plus body) at position `p`. -/
def matchAltVia (text : List Char) (p : Nat) (body : List Char → Option Nat) :
    Option Nat :=
  (nlStartCands text p).findSome? (fun d =>
    (body ((text.drop p).drop d)).map (fun j => d + j))

/-- The combined alternation at position `p`: the total width of the match
of the first alternative that succeeds. -/
def matchAltAt (text : List Char) (p : Nat) : Option Nat :=
  match matchAltVia text p matchP1Body with
  | some j => some j
  | none =>
    match matchAltVia text p matchP2Body with
    | some j => some j
    | none => matchAltVia text p matchP3Body

/-- `re.finditer` scan: from position `p`, return the `(start, end)` spans of
all non-overlapping matches, resuming after each match.  All three
alternatives consume at least one character, so the scan advances; the fuel
`text.length + 1` is enough. -/
def finditerAux (text : List Char) : Nat → Nat → List (Nat × Nat)
  | 0, _ => []
  | fuel+1, p =>
    if p ≥ text.length then []
    else
      match matchAltAt text p with
      | some w => (p, p + w) :: finditerAux text fuel (p + max w 1)
      | none => finditerAux text fuel (p + 1)

/-- All matches of the combined heading pattern in `text`. -/
def finditerHeadings (text : List Char) : List (Nat × Nat) :=
  finditerAux text (text.length + 1) 0

/-- The `for match in headings` loop of `chunk_by_headings`: thread
`last_end` and `current_heading`, emitting the span between the previous
match end and this match start when it is non-empty after stripping.
Returns the emitted chunks, the final `last_end` and the final
`current_heading`. -/
def headingLoop (tl : List Char) :
    List (Nat × Nat) → Nat → String → List Chunk × Nat × String
  | [], lastEnd, cur => ([], lastEnd, cur)
  | (s, e) :: ms, lastEnd, cur =>
    let headingText := (pyStripChars ((tl.drop s).take (e - s))).asString
    let chunkStr := pyStripChars ((tl.drop lastEnd).take (s - lastEnd))
    let here : List Chunk :=
      if s > lastEnd ∧ chunkStr ≠ [] then [{ heading := cur, content := chunkStr.asString }]
      else []
    let rest := headingLoop tl ms e headingText
    (here ++ rest.1, rest.2)

/-- `TextService.chunk_by_headings`. -/
def chunk_by_headings (text : String) : List Chunk :=
  let tl := text.toList
  let r := headingLoop tl (finditerHeadings tl) 0 "Introduction"
  if r.2.1 < tl.length then
    r.1 ++ [{ heading := r.2.2, content := (pyStripChars (tl.drop r.2.1)).asString }]
  else r.1

/-! ### Paragraph chunking (`chunk_by_paragraphs`) -/

/-- Width of a match of the separator regex `\n\s*\n` at one position:
`\n`, then a greedy (longest-first) `\s*` of `k ≤ m` characters, then `\n`. -/
def tryParaWs (l1 : List Char) : Nat → Option Nat
  | 0 => if l1.get? 0 = some '\n' then some 2 else none
  | k+1 =>
    if l1.get? (k + 1) = some '\n' then some (k + 3)
    else tryParaWs l1 k

/-- Match `\n\s*\n` at position `p` of `tl`, returning the match width. -/
def paraMatchAt (tl : List Char) (p : Nat) : Option Nat :=
  if tl.get? p = some '\n' then
    let l1 := tl.drop (p + 1)
    tryParaWs l1 (runLen isWsB l1)
  else none

/-- `re.split(r'\n\s*\n', text)`: pieces between the leftmost
non-overlapping separator matches. -/
def paraSplitAux (tl : List Char) : Nat → Nat → Nat → List String
  | 0, _, st => [(tl.drop st).asString]
  | fuel+1, p, st =>
    if p ≥ tl.length then [(tl.drop st).asString]
    else
      match paraMatchAt tl p with
      | some w => ((tl.drop st).take (p - st)).asString :: paraSplitAux tl fuel (p + w) (p + w)
      | none => paraSplitAux tl fuel (p + 1) st

def paraSplit (text : String) : List String :=
  paraSplitAux text.toList (text.toList.length + 1) 0 0

/-- The paragraph accumulation loop of `chunk_by_paragraphs`: a short
paragraph ending in `:` or `.` resets the accumulator and becomes the
heading; otherwise the paragraph is appended and the accumulator is emitted
once it reaches `min_length`. -/
def paraLoop (minLength : Nat) : List String → String → String → List Chunk
  | [], cur, heading => if cur ≠ "" then [{ heading := heading, content := pyStrip cur }] else []
  | p :: ps, cur, heading =>
    let para := pyStrip p
    if para = "" then paraLoop minLength ps cur heading
    else if para.length < 100 ∧ (para.endsWith ":" ∨ para.endsWith ".") then
      paraLoop minLength ps "" para
    else
      let cur2 := cur ++ para ++ "\n\n"
      if cur2.length ≥ minLength then
        { heading := heading, content := pyStrip cur2 } :: paraLoop minLength ps "" heading
      else paraLoop minLength ps cur2 heading

/-- `TextService.chunk_by_paragraphs` (`min_length` defaults to 200). -/
def chunk_by_paragraphs (text : String) (minLength : Nat) : List Chunk :=
  paraLoop minLength (paraSplit text) "" "Text"

/-! ### Fixed-size chunking (`chunk_by_size`) -/

/-- Python `text.split()`: split on whitespace runs, discarding empties. -/
def splitWsChars : List Char → List (List Char)
  | [] => []
  | c :: cs =>
    if isWsB c then splitWsChars cs
    else (c :: cs.takeWhile (fun d => !isWsB d)) :: splitWsChars (cs.dropWhile (fun d => !isWsB d))
termination_by l => l.length
decreasing_by
  · simp only [List.length_cons]; omega
  · simp only [List.length_cons]
    exact Nat.lt_succ_of_le (List.Sublist.length_le (List.dropWhile_sublist _))

/-- Python `text.split()` on a `String`. -/
def pySplit (text : String) : List String := (splitWsChars text.toList).map List.asString

/-- Python `" ".join(tokens)`. -/
def pyJoinSpace : List String → String
  | [] => ""
  | [t] => t
  | t :: ts => t ++ " " ++ pyJoinSpace ts

/-- The per-chunk title search of `chunk_by_size`: the first of the chunk
text's first five lines that strips to a 10–100 character line ending in
`:` or `.`, else the synthetic `Chunk <n>` label. -/
def chunkTitle (chunkText : String) (nchunks : Nat) : String :=
  let lines := (chunkText.splitOn "\n").take 5
  match (lines.map pyStrip).find?
      (fun ln => 10 < ln.length ∧ ln.length < 100 ∧ (ln.endsWith ":" ∨ ln.endsWith ".")) with
  | some t => t
  | none => "Chunk " ++ toString (nchunks + 1)

/-- The window loop of `chunk_by_size`:
`for i in range(0, len(tokens), step)` with `step = max_tokens - overlap`,
emitting `tokens[i:i+max_tokens]` joined with spaces.  `max 1 step` only
differs from `step` at `step = 0`, where the Python `range` raises
`ValueError`; every use here has `step ≥ 1`. -/
def sizeLoop (maxTokens step : Nat) (tokens : List String) (idx : Nat) : List Chunk :=
  if tokens = [] then []
  else
    let chunkText := pyJoinSpace (tokens.take maxTokens)
    { heading := chunkTitle chunkText idx, content := chunkText } ::
      sizeLoop maxTokens step (tokens.drop (max 1 step)) (idx + 1)
termination_by tokens.length
decreasing_by
  simp only [List.length_drop]
  rename_i h
  have : 0 < tokens.length := List.length_pos.mpr h
  omega

/-- `TextService.chunk_by_size` (defaults `max_tokens = 1000`,
`overlap = 100` at the call site). -/
def chunk_by_size (text : String) (maxTokens overlap : Nat) : List Chunk :=
  sizeLoop maxTokens (maxTokens - overlap) (pySplit text) 0

/-- `TextService.chunk_text`: strategy dispatch with defaults
(`semantic` → headings, `fixed` → size, otherwise paragraphs). -/
def chunk_text (text : String) (strategy : String) : List Chunk :=
  if strategy = "semantic" then chunk_by_headings text
  else if strategy = "fixed" then chunk_by_size text 1000 100
  else chunk_by_paragraphs text 200

/-! ### Extraction (`PDFService.extract_text`) and the background task
(`process_pdf` in `routers/pdf.py`)

The pdfminer call, the OCR engine and the filesystem are external: the
primary extraction result and the per-page OCR texts are parameters, and an
`exn` outcome stands for any exception raised inside `extract_text`'s `try`
block. -/

inductive ExtractOutcome where
  | exn (msg : String)
  | ok (primary : String) (ocrPages : List String)

/-- The accumulation loop of `PDFService._extract_with_ocr`:
`text += f"\n\n--- Page {i+1} ---\n\n"; text += page_text`. -/
def extract_with_ocr_loop : List String → Nat → String → String
  | [], _, acc => acc
  | p :: ps, i, acc =>
    extract_with_ocr_loop ps (i + 1)
      (acc ++ "\n\n--- Page " ++ toString (i + 1) ++ " ---\n\n" ++ p)

/-- `PDFService._extract_with_ocr`. -/
def extract_with_ocr (pages : List String) : String :=
  extract_with_ocr_loop pages 0 ""

/-- The fallback choice of `PDFService.extract_text`:
`if not extracted_text or len(extracted_text.strip()) < 100`, run OCR. -/
def extractedOrOcr (primary : String) (pages : List String) : String :=
  if primary = "" ∨ (pyStrip primary).length < 100 then extract_with_ocr pages
  else primary

/-- `PDFService.extract_text` on an existing document: set status
`processing`, then return the primary extraction unless it is empty or
strips to fewer than 100 characters, in which case run the OCR fallback.
Any exception marks the document `failed` and re-raises. -/
def extract_text (eo : ExtractOutcome) (d : PdfDoc) : PdfDoc × Except String String :=
  let d1 := { d with status := "processing" }
  match eo with
  | ExtractOutcome.exn m =>
    ({ d1 with status := "failed", error := some m },
     Except.error ("Error extracting text: " ++ m))
  | ExtractOutcome.ok primary pages =>
    (d1, Except.ok (extractedOrOcr primary pages))

/-- The background task `process_pdf` on an existing document: set status
`processing` / progress 10, extract, bump progress to 30 and 50 around the
(synchronous) semantic chunking unless canceled, run the generation stage,
and turn any escaped exception into status `failed` with the message
recorded. -/
def process_pdf (eo : ExtractOutcome) (env : GenEnv) (d0 : PdfDoc) :
    PdfDoc × List DBEvent :=
  let d1 := { d0 with status := "processing", progress := 10 }
  let ext := extract_text eo d1
  match ext.2 with
  | Except.error m => ({ ext.1 with status := "failed", error := some m }, [])
  | Except.ok text =>
    let d3 := if ext.1.status ≠ "canceled" then { ext.1 with progress := 30 } else ext.1
    let chunks := chunk_text text "semantic"
    let d4 := if d3.status ≠ "canceled" then { d3 with progress := 50 } else d3
    let gen := generate_qa_from_chunks env chunks d4
    match gen.2.2 with
    | Except.ok _ => (gen.1, gen.2.1)
    | Except.error m => ({ gen.1 with status := "failed", error := some m }, gen.2.1)

/-! ## Claim analyses -/

/-- Environment: hosted provider selected, credential absent. -/
def envClaudeNoKey : GenEnv :=
  { provider := "claude", apiKey := none
    claudeOut := fun _ => Except.ok [], ollamaOut := fun _ => Except.ok "" }

/-- Environment: hosted provider, credential present, every call answered by
a `text` block holding the empty JSON array. -/
def envClaudeEmptyReply : GenEnv :=
  { provider := "claude", apiKey := some "key"
    claudeOut := fun _ => Except.ok [{ type := "text", text := "[]" }]
    ollamaOut := fun _ => Except.ok "[]" }

/-- The `Generating` status rendering is never the literal `canceled`, so
the loop's boundary check never fires on a status the loop itself wrote. -/
theorem generatingStatus_ne_canceled (i total : Nat) :
    generatingStatus i total ≠ "canceled" := by
  intro h
  have h2 : ("analyzing_chunk_" ++ toString (i + 1) ++ "_of_" ++ toString total).data =
      "canceled".data := by rw [← h]; rfl
  rw [show ("canceled" : String).data = ['c', 'a', 'n', 'c', 'e', 'l', 'e', 'd'] from rfl] at h2
  rw [String.data_append, String.data_append, String.data_append] at h2
  rw [show ("analyzing_chunk_" : String).data = 'a' :: "nalyzing_chunk_".data from rfl] at h2
  simp [List.cons_append] at h2

/-- With the hosted provider selected and no credential, the first loop
iteration commits its status/progress write and then raises the missing-key
`ValueError`, which propagates out of the loop. -/
theorem qaLoop0_noKey (co : Nat → Except String (List ContentBlock))
    (oo : Nat → Except String String) (total : Nat) (c : Chunk) (cs : List Chunk)
    (d : PdfDoc) (h : d.status ≠ "canceled") :
    qaLoop { provider := "claude", apiKey := none, claudeOut := co, ollamaOut := oo }
      total (c :: cs) 0 d =
      ({ d with status := generatingStatus 0 total, progress := 50 },
       [DBEvent.statusWrite (generatingStatus 0 total) 50],
       Except.error "ANTHROPIC_API_KEY not set in environment") := by
  obtain ⟨st, pr, er⟩ := d
  simp only [qaLoop]
  rw [if_neg h]
  simp [generate_qa_pairs, generateWithClaude]

/-- C1: for a job whose status is the `Generating(1, 3)` rendering
`analyzing_chunk_1_of_3` — exactly the status string the generation loop
commits for the first of three chunks — the cancellation endpoint does not
record the request: it rejects it with HTTP 400. -/
theorem c1_cancel_rejected_during_generating :
    cancel_pdf_processing
      { status := "analyzing_chunk_1_of_3", progress := 62, error := none } =
      Except.error 400 ∧
    (generate_qa_from_chunks envClaudeEmptyReply
      [{ heading := "A", content := "a" }, { heading := "B", content := "b" },
       { heading := "C", content := "c" }]
      { status := "processing", progress := 50, error := none }).2.1.head? =
      some (DBEvent.statusWrite "analyzing_chunk_1_of_3" 50) := by
  constructor <;> rfl

/-- C9: a generation run over an empty chunk sequence performs zero pair
appends and ends with status `completed`, progress `100`, returning an empty
pair list, whatever the provider environment and prior document state. -/
theorem c9_empty_chunks_completed (env : GenEnv) (d : PdfDoc) :
    generate_qa_from_chunks env [] d =
      ({ d with status := "completed", progress := 100 },
       [DBEvent.statusWrite "completed" 100], Except.ok []) := rfl

/-- C3: on any exception raised during the request or response handling
(`Except.error` outcome), both backends return exactly one degraded pair of
type `error` whose answer carries the failure message, and a transport error
on chunk 1 does not prevent chunk 2 from being processed: a two-chunk run
whose calls all fail still visits both chunks and completes. -/
theorem c3_provider_errors_degrade :
    (∀ (k msg textChunk : String) (ctx : Option Ctx),
      generateWithClaude (some k) (Except.error msg) textChunk ctx =
        Except.ok [degradedPair msg (sectionOf ctx)]) ∧
    (∀ (msg textChunk : String) (ctx : Option Ctx),
      generateWithOllama (Except.error msg) textChunk ctx =
        Except.ok [degradedPair msg (sectionOf ctx)]) ∧
    (∀ msg sh : String, (degradedPair msg sh).type = "error" ∧
      (degradedPair msg sh).answer = "API error: " ++ msg) ∧
    (∀ (k msg : String) (c₁ c₂ : Chunk),
      generate_qa_from_chunks
        { provider := "claude", apiKey := some k
          claudeOut := fun _ => Except.error msg, ollamaOut := fun _ => Except.ok "" }
        [c₁, c₂] { status := "processing", progress := 50, error := none } =
        ({ status := "completed", progress := 100, error := none },
         [DBEvent.statusWrite (generatingStatus 0 2) 50,
          DBEvent.appendPair (degradedPair msg c₁.heading),
          DBEvent.statusWrite (generatingStatus 1 2) 70,
          DBEvent.appendPair (degradedPair msg c₂.heading),
          DBEvent.statusWrite "completed" 100],
         Except.ok [degradedPair msg c₁.heading, degradedPair msg c₂.heading])) := by
  refine ⟨fun _ _ _ _ => rfl, fun _ _ _ => rfl, fun _ _ => ⟨rfl, rfl⟩, ?_⟩
  intro k msg c₁ c₂
  simp [generate_qa_from_chunks, qaLoop, generate_qa_pairs, generateWithClaude,
    generatingStatus_ne_canceled, sectionOf, Except.map]

/-- C2 counterexample: a document already in the terminal state `canceled`
is not left unchanged by the background processing operation — `process_pdf`
unconditionally re-enters `processing` and (here, with an empty extraction
and hence an empty chunk sequence) drives the job to `completed`. -/
theorem c2_counterexample :
    (process_pdf (ExtractOutcome.ok "" []) envClaudeEmptyReply
      { status := "canceled", progress := 0
        error := some "Processing was canceled by the user" }).1 =
      { status := "completed", progress := 100
        error := some "Processing was canceled by the user" } ∧
    ("completed" : String) ≠ "canceled" := by
  constructor <;> decide

/-- C2 amended: the cancellation endpoint does leave every terminal state
unchanged (it rejects with HTTP 400), but the background processing start is
not terminal-state-safe (see the counterexample). -/
theorem c2_cancel_preserves_terminal (d : PdfDoc)
    (h : d.status = "completed" ∨ d.status = "failed" ∨ d.status = "canceled") :
    cancel_pdf_processing d = Except.error 400 := by
  rcases h with h | h | h <;> simp [cancel_pdf_processing, h]

/-- Witness for `c2_cancel_preserves_terminal` at a concrete document. -/
theorem c2_cancel_preserves_terminal_witness :
    (({ status := "completed", progress := 100, error := none } : PdfDoc).status
        = "completed" ∨
      ({ status := "completed", progress := 100, error := none } : PdfDoc).status
        = "failed" ∨
      ({ status := "completed", progress := 100, error := none } : PdfDoc).status
        = "canceled") ∧
    cancel_pdf_processing { status := "completed", progress := 100, error := none } =
      Except.error 400 :=
  ⟨Or.inl rfl, c2_cancel_preserves_terminal _ (Or.inl rfl)⟩

/-- C5 counterexample: with the hosted backend selected and the credential
absent, the run does fail job-fatally with the configuration error, but not
before every per-chunk write: the first chunk's status/progress commit
(`analyzing_chunk_1_of_1`, progress 50) happens before the error is
raised. -/
theorem c5_counterexample :
    generate_qa_from_chunks envClaudeNoKey [{ heading := "H", content := "C" }]
      { status := "processing", progress := 50, error := none } =
      ({ status := "analyzing_chunk_1_of_1", progress := 50, error := none },
       [DBEvent.statusWrite "analyzing_chunk_1_of_1" 50],
       Except.error "ANTHROPIC_API_KEY not set in environment") := rfl

/-- C5 amended: with the hosted backend and an absent credential, the
missing-key error is raised at the first provider call: it propagates
uncaught (it is not a degraded pair), no pair is ever appended, and the job
ends `failed` with the configuration message — but the first chunk's
status/progress write has already been committed when it is raised. -/
theorem c5_nokey_fatal_after_first_status_write :
    (∀ (co : Nat → Except String (List ContentBlock))
       (oo : Nat → Except String String) (c : Chunk) (cs : List Chunk) (d : PdfDoc),
      d.status ≠ "canceled" →
      generate_qa_from_chunks
        { provider := "claude", apiKey := none, claudeOut := co, ollamaOut := oo }
        (c :: cs) d =
        ({ d with status := generatingStatus 0 (cs.length + 1), progress := 50 },
         [DBEvent.statusWrite (generatingStatus 0 (cs.length + 1)) 50],
         Except.error "ANTHROPIC_API_KEY not set in environment")) ∧
    (∀ (co : Nat → Except String (List ContentBlock))
       (oo : Nat → Except String String) (primary : String) (pages : List String)
       (d0 : PdfDoc) (c : Chunk) (cs : List Chunk),
      chunk_text (extractedOrOcr primary pages) "semantic" = c :: cs →
      process_pdf (ExtractOutcome.ok primary pages)
        { provider := "claude", apiKey := none, claudeOut := co, ollamaOut := oo } d0 =
        ({ status := "failed", progress := 50
           error := some "ANTHROPIC_API_KEY not set in environment" },
         [DBEvent.statusWrite (generatingStatus 0 (cs.length + 1)) 50])) := by
  constructor
  · intro co oo c cs d h
    simp only [generate_qa_from_chunks, List.length_cons]
    exact qaLoop0_noKey co oo (cs.length + 1) c cs d h
  · intro co oo primary pages d0 c cs hch
    obtain ⟨s0, p0, e0⟩ := d0
    simp only [process_pdf, extract_text, ne_eq, String.reduceEq, reduceIte,
      not_false_eq_true]
    rw [hch]
    simp only [generate_qa_from_chunks, List.length_cons]
    rw [qaLoop0_noKey co oo (cs.length + 1) c cs
      { status := "processing", progress := 50, error := e0 } (by simp)]

/-- Witness for `c5_nokey_fatal_after_first_status_write` at concrete
inputs (one chunk; extraction yielding a single-chunk text). -/
theorem c5_nokey_fatal_witness :
    (({ status := "processing", progress := 50, error := none } : PdfDoc).status
        ≠ "canceled" ∧
      chunk_text (extractedOrOcr "" ["long enough"]) "semantic" =
        [{ heading := "Introduction", content := "--- Page 1 ---\n\nlong enough" }]) ∧
    (generate_qa_from_chunks envClaudeNoKey
        [{ heading := "H", content := "C" }]
        { status := "processing", progress := 50, error := none } =
      ({ status := generatingStatus 0 1, progress := 50, error := none },
       [DBEvent.statusWrite (generatingStatus 0 1) 50],
       Except.error "ANTHROPIC_API_KEY not set in environment")) ∧
    process_pdf (ExtractOutcome.ok "" ["long enough"]) envClaudeNoKey
        { status := "uploaded", progress := 0, error := none } =
      ({ status := "failed", progress := 50
         error := some "ANTHROPIC_API_KEY not set in environment" },
       [DBEvent.statusWrite (generatingStatus 0 1) 50]) :=
  ⟨⟨by decide, by decide⟩,
   c5_nokey_fatal_after_first_status_write.1 (fun _ => Except.ok []) (fun _ => Except.ok "")
     { heading := "H", content := "C" } []
     { status := "processing", progress := 50, error := none } (by decide),
   c5_nokey_fatal_after_first_status_write.2 (fun _ => Except.ok []) (fun _ => Except.ok "")
     "" ["long enough"] { status := "uploaded", progress := 0, error := none }
     { heading := "Introduction", content := "--- Page 1 ---\n\nlong enough" } []
     (by decide)⟩

/-- Modelled from the spec's words, for comparison with the code: the span
of the raw reply from the first `[` to the last `]` inclusive, when the
first `[` precedes the last `]`. -/
def specBracketSpan (g : String) : Option String :=
  match g.toList.findIdx? (fun c => c == '[') with
  | none => none
  | some i =>
    match g.toList.reverse.findIdx? (fun c => c == ']') with
    | none => none
    | some j =>
      if i ≤ g.toList.length - 1 - j then
        some (((g.toList.drop i).take (g.toList.length - 1 - j + 1 - i)).asString)
      else none

/-- The shared tail of both backends once the text to parse is fixed: a
parse failure becomes the degraded pair, decoded pairs are stamped with the
heading context. -/
def stampedResult (r : Except String (List QARaw)) (sh : String) :
    Except String (List QAPairD) :=
  match r with
  | Except.error e => Except.ok [degradedPair e sh]
  | Except.ok ps => Except.ok (ps.map (stampSection sh))

/-- C4 counterexample: on the same prose-wrapped reply text
`"Here is the JSON: []"`, the local backend's span extraction parses the
`[]` span to zero pairs, but the hosted backend does not locate the span:
it hands the whole text block to the JSON parser and returns the degraded
error pair instead. -/
theorem c4_counterexample :
    generateWithClaude (some "key")
        (Except.ok [{ type := "text", text := "Here is the JSON: []" }]) "chunk" none =
      Except.ok [degradedPair "Expecting value" "Text"] ∧
    generateWithClaude (some "key")
        (Except.ok [{ type := "text", text := "Here is the JSON: []" }]) "chunk" none ≠
      Except.ok [] ∧
    generateWithOllama (Except.ok "Here is the JSON: []") "chunk" none =
      Except.ok [] := by
  refine ⟨rfl, fun h => ?_, rfl⟩
  rw [show generateWithClaude (some "key")
        (Except.ok [{ type := "text", text := "Here is the JSON: []" }]) "chunk" none =
      Except.ok [degradedPair "Expecting value" "Text"] from rfl] at h
  simp at h

/-- C4 amended: only the local (ollama) backend locates the first `[` and
the last `]` of the raw reply and parses exactly that span — emitting the
degraded pair, not an exception, when no valid span exists; the hosted
(claude) backend parses its entire extracted text block directly. -/
theorem c4_span_extraction_local_backend_only :
    (∀ (g textChunk : String) (ctx : Option Ctx),
      generateWithOllama (Except.ok g) textChunk ctx =
        (match specBracketSpan g with
         | none =>
           Except.ok [degradedPair "Could not find valid JSON in response" (sectionOf ctx)]
         | some sp => stampedResult (jsonLoads sp) (sectionOf ctx))) ∧
    (∀ (k t textChunk : String) (ctx : Option Ctx),
      generateWithClaude (some k) (Except.ok [{ type := "text", text := t }]) textChunk ctx =
        stampedResult (jsonLoads t) (sectionOf ctx)) := by
  constructor
  · intro g textChunk ctx
    unfold generateWithOllama specBracketSpan pyFind pyRfind pySlice
    dsimp only [String.toList]
    cases hf : List.findIdx? (fun d => d == '[') g.data with
    | none => simp [hf]
    | some i =>
      cases hg : List.findIdx? (fun d => d == ']') g.data.reverse with
      | none =>
        simp only [hf, hg, Int.ofNat_eq_coe]
        rw [if_neg (show ¬((i : Int) ≥ 0 ∧ (-1 : Int) + 1 > (i : Int)) from by omega)]
      | some j =>
        simp only [hf, hg, Int.ofNat_eq_coe]
        have hcond : ((i : Int) ≥ 0 ∧ ((g.data.length - 1 - j : Nat) : Int) + 1 > (i : Int)) ↔
            i ≤ g.data.length - 1 - j := by omega
        simp only [hcond]
        by_cases hij : i ≤ g.data.length - 1 - j
        · rw [if_pos hij, if_pos hij]; rfl
        · rw [if_neg hij, if_neg hij]
  · intro k t textChunk ctx
    cases h : jsonLoads t <;>
      simp [generateWithClaude, stampedResult, h, List.find?]

/-- Modelled from the spec's words, for comparison with the code: each
page's recognized text preceded by its `--- Page N ---` boundary marker
(pages numbered from 1), concatenated in page order. -/
def ocrPagesSpec : List String → Nat → String
  | [], _ => ""
  | p :: ps, n =>
    "\n\n--- Page " ++ toString (n + 1) ++ " ---\n\n" ++ p ++ ocrPagesSpec ps (n + 1)

/-- The OCR accumulation loop concatenates marker-prefixed pages in order. -/
theorem extract_with_ocr_loop_spec (ps : List String) : ∀ (n : Nat) (acc : String),
    extract_with_ocr_loop ps n acc = acc ++ ocrPagesSpec ps n := by
  induction ps with
  | nil => intro n acc; simp [extract_with_ocr_loop, ocrPagesSpec, String.append_empty]
  | cons p ps ih =>
    intro n acc
    simp [extract_with_ocr_loop, ocrPagesSpec, ih, String.append_assoc]

/-- C7: extraction runs the primary path first and invokes the OCR fallback
exactly when the primary result is empty or strips to fewer than 100
characters; the OCR text is, for each page `i` (numbered from 1), the
page's recognized text preceded by the `--- Page i ---` boundary marker,
pages concatenated in order. -/
theorem c7_extraction_fallback (primary : String) (pages : List String) (d : PdfDoc) :
    (extract_text (ExtractOutcome.ok primary pages) d).2 =
      Except.ok (if primary = "" ∨ (pyStrip primary).length < 100
        then ocrPagesSpec pages 0 else primary) := by
  show Except.ok (extractedOrOcr primary pages) = _
  unfold extractedOrOcr extract_with_ocr
  by_cases h : primary = "" ∨ (pyStrip primary).length < 100
  · rw [if_pos h, if_pos h, extract_with_ocr_loop_spec]
    rw [String.empty_append]
  · rw [if_neg h, if_neg h]

/-- C8: the spec's worked example — semantic chunking of
`"# Intro\nHello world.\n\n# Details\nMore text here."` yields exactly the
two chunks `(# Intro, Hello world.)` and `(# Details, More text here.)`,
in that order. -/
theorem c8_semantic_example :
    chunk_by_headings "# Intro\nHello world.\n\n# Details\nMore text here." =
      [{ heading := "# Intro", content := "Hello world." },
       { heading := "# Details", content := "More text here." }] := by
  decide

/-! ### Lemmas: the heading pattern never matches inside whitespace-only text -/

/-- `dropWhile` drops everything when the predicate holds everywhere. -/
theorem dropWhile_eq_nil_of_all {α : Type} (p : α → Bool) (l : List α)
    (h : ∀ c ∈ l, p c = true) : l.dropWhile p = [] := by
  induction l with
  | nil => rfl
  | cons c cs ih =>
    rw [List.dropWhile_cons_of_pos (h c (List.mem_cons_self c cs))]
    exact ih (fun d hd => h d (List.mem_cons_of_mem c hd))

/-- Stripping a whitespace-only codepoint list yields the empty list. -/
theorem pyStripChars_ws (l : List Char) (h : ∀ c ∈ l, isWsB c = true) :
    pyStripChars l = [] := by
  unfold pyStripChars
  rw [dropWhile_eq_nil_of_all isWsB l h]
  rfl

/-- No `#` run starts a whitespace-only suffix. -/
theorem runLen_hash_ws (l : List Char) (h : ∀ c ∈ l, isWsB c = true) :
    runLen (fun c => c == '#') l = 0 := by
  cases l with
  | nil => rfl
  | cons c cs =>
    have hc := h c (List.mem_cons_self c cs)
    have hne : (c == '#') = false := by
      cases hbeq : c == '#' with
      | false => rfl
      | true =>
        have heq : c = '#' := beq_iff_eq.mp hbeq
        subst heq
        exact absurd hc (by decide)
    simp [runLen, List.takeWhile_cons, hne]

/-- Pattern 1 (`#+\s+...`) fails on a whitespace-only suffix. -/
theorem matchP1Body_ws (l : List Char) (h : ∀ c ∈ l, isWsB c = true) :
    matchP1Body l = none := by
  unfold matchP1Body
  rw [runLen_hash_ws l h]
  rfl

/-- Pattern 2 (`CHAPTER|Section ...`) fails on a whitespace-only suffix. -/
theorem matchP2Body_ws (l : List Char) (h : ∀ c ∈ l, isWsB c = true) :
    matchP2Body l = none := by
  cases l with
  | nil => rfl
  | cons c cs =>
    have hc := h c (List.mem_cons_self c cs)
    have h1 : ¬ ((c :: cs).take 7 = "CHAPTER".toList) := by
      intro heq
      rw [show "CHAPTER".toList = 'C' :: "HAPTER".toList from rfl] at heq
      rw [show (c :: cs).take 7 = c :: cs.take 6 from rfl] at heq
      obtain ⟨hch, -⟩ := List.cons.inj heq
      subst hch
      exact absurd hc (by decide)
    have h2 : ¬ ((c :: cs).take 7 = "Section".toList) := by
      intro heq
      rw [show "Section".toList = 'S' :: "ection".toList from rfl] at heq
      rw [show (c :: cs).take 7 = c :: cs.take 6 from rfl] at heq
      obtain ⟨hch, -⟩ := List.cons.inj heq
      subst hch
      exact absurd hc (by decide)
    unfold matchP2Body
    rw [if_neg h1, if_neg h2]

/-- Pattern 3 (`[A-Z]...`) fails on a whitespace-only suffix. -/
theorem matchP3Body_ws (l : List Char) (h : ∀ c ∈ l, isWsB c = true) :
    matchP3Body l = none := by
  cases l with
  | nil => rfl
  | cons c cs =>
    have hc := h c (List.mem_cons_self c cs)
    have hup : isUpperAZ c = false := by
      simp only [isWsB, Bool.or_eq_true, beq_iff_eq] at hc
      rcases hc with ((((h1 | h1) | h1) | h1) | h1) | h1 <;> subst h1 <;> rfl
    simp [matchP3Body, hup]

/-- One alternative (lead-in plus body) fails at every position of a
whitespace-only text, whenever its body fails on whitespace-only suffixes. -/
theorem matchAltVia_ws (text : List Char) (p : Nat) (body : List Char → Option Nat)
    (hb : ∀ l : List Char, (∀ c ∈ l, isWsB c = true) → body l = none)
    (h : ∀ c ∈ text, isWsB c = true) :
    matchAltVia text p body = none := by
  unfold matchAltVia
  rw [List.findSome?_eq_none_iff]
  intro d _
  rw [hb ((text.drop p).drop d)
    (fun c hc => h c (List.drop_subset p text (List.drop_subset d (text.drop p) hc)))]
  rfl

/-- The combined heading alternation never matches in whitespace-only text. -/
theorem matchAltAt_ws (text : List Char) (h : ∀ c ∈ text, isWsB c = true) (p : Nat) :
    matchAltAt text p = none := by
  unfold matchAltAt
  rw [matchAltVia_ws text p matchP1Body matchP1Body_ws h,
    matchAltVia_ws text p matchP2Body matchP2Body_ws h,
    matchAltVia_ws text p matchP3Body matchP3Body_ws h]

/-- `finditer` finds nothing in whitespace-only text. -/
theorem finditerAux_ws (text : List Char) (h : ∀ c ∈ text, isWsB c = true) :
    ∀ (fuel p : Nat), finditerAux text fuel p = [] := by
  intro fuel
  induction fuel with
  | zero => intro p; rfl
  | succ n ih =>
    intro p
    unfold finditerAux
    by_cases hp : p ≥ text.length
    · rw [if_pos hp]
    · rw [if_neg hp, matchAltAt_ws text h p]
      exact ih (p + 1)

/-- After the loop, `last_end` is the end of the last match. -/
theorem headingLoop_lastEnd (tl : List Char) (ms : List (Nat × Nat)) (s e : Nat) :
    ∀ (le : Nat) (cur : String),
      (headingLoop tl (ms ++ [(s, e)]) le cur).2.1 = e := by
  induction ms with
  | nil => intro le cur; rfl
  | cons m ms ih =>
    intro le cur
    obtain ⟨ms1, me⟩ := m
    simp only [List.cons_append, headingLoop]
    exact ih me _

/-- C10: the semantic chunker can emit a chunk with empty content — a
non-empty whitespace-only text yields exactly the single chunk
`(Introduction, "")`, and whenever the last heading match is followed by a
non-empty whitespace-only remainder, the final chunk's content is empty,
because the trailing chunk is appended without the non-empty-after-trimming
check applied to interior chunks. -/
theorem c10_semantic_empty_content :
    (∀ text : String, text ≠ "" → (∀ c ∈ text.toList, isWsB c = true) →
      chunk_by_headings text = [{ heading := "Introduction", content := "" }]) ∧
    (∀ (text : String) (ms : List (Nat × Nat)) (s e : Nat),
      finditerHeadings text.toList = ms ++ [(s, e)] →
      e < text.toList.length →
      (∀ c ∈ text.toList.drop e, isWsB c = true) →
      ∃ hd, (chunk_by_headings text).getLast? =
        some { heading := hd, content := "" }) := by
  constructor
  · intro text h1 h2
    have hlen : 0 < text.toList.length := by
      cases hn : text.toList with
      | nil =>
        exfalso
        apply h1
        cases text with
        | mk data =>
          simp only [String.toList] at hn
          subst hn
          rfl
      | cons a as => simp [hn]
    simp only [chunk_by_headings, finditerHeadings]
    rw [finditerAux_ws text.toList h2]
    simp only [headingLoop]
    rw [if_pos hlen, pyStripChars_ws _ (fun c hc => h2 c (List.drop_subset 0 text.toList hc))]
    rfl
  · intro text ms s e hms he hws
    simp only [chunk_by_headings]
    rw [hms, headingLoop_lastEnd text.toList ms s e 0 "Introduction", if_pos he,
      pyStripChars_ws _ hws]
    simp only [show ([] : List Char).asString = "" from rfl]
    exact ⟨(headingLoop text.toList (ms ++ [(s, e)]) 0 "Introduction").2.2,
      by simp⟩

/-- Witness for `c10_semantic_empty_content` at the whitespace-only text
`" "` and at `"# A\n "`, whose single heading match `(0, 4)` is followed by
one space. -/
theorem c10_witness :
    ((" " : String) ≠ "" ∧ (∀ c ∈ (" " : String).toList, isWsB c = true) ∧
      chunk_by_headings " " = [{ heading := "Introduction", content := "" }]) ∧
    (finditerHeadings ("# A\n " : String).toList = [] ++ [(0, 4)] ∧
      4 < ("# A\n " : String).toList.length ∧
      (∀ c ∈ ("# A\n " : String).toList.drop 4, isWsB c = true) ∧
      ∃ hd, (chunk_by_headings "# A\n ").getLast? =
        some { heading := hd, content := "" }) :=
  ⟨⟨by decide, by decide,
    c10_semantic_empty_content.1 " " (by decide) (by decide)⟩,
   by decide, by decide, by decide,
   c10_semantic_empty_content.2 "# A\n " [] 0 4 (by decide) (by decide) (by decide)⟩

/-! ### Lemmas for fixed-size chunking: whitespace split/join round trip -/

/-- `takeWhile` keeps everything when the predicate holds everywhere. -/
theorem takeWhile_eq_self_of_all {α : Type} (p : α → Bool) (l : List α)
    (h : ∀ a ∈ l, p a = true) : l.takeWhile p = l := by
  induction l with
  | nil => rfl
  | cons c cs ih =>
    rw [List.takeWhile_cons_of_pos (h c (List.mem_cons_self c cs))]
    exact congrArg (c :: ·) (ih fun d hd => h d (List.mem_cons_of_mem c hd))

/-- Every token produced by `splitWsChars` is non-empty and free of
whitespace. -/
theorem splitWsChars_tokens : ∀ (n : Nat) (l : List Char), l.length ≤ n →
    ∀ t ∈ splitWsChars l, t ≠ [] ∧ ∀ c ∈ t, isWsB c = false := by
  intro n
  induction n with
  | zero =>
    intro l hl t ht
    have hnil : l = [] := List.eq_nil_of_length_eq_zero (Nat.le_zero.mp hl)
    subst hnil
    simp [splitWsChars] at ht
  | succ n ih =>
    intro l hl t ht
    cases l with
    | nil => simp [splitWsChars] at ht
    | cons c cs =>
      rw [splitWsChars] at ht
      by_cases hc : isWsB c = true
      · rw [if_pos hc] at ht
        exact ih cs (by simp at hl; omega) t ht
      · rw [if_neg hc] at ht
        rcases List.mem_cons.mp ht with heq | ht'
        · subst heq
          refine ⟨by simp, ?_⟩
          intro d hd
          rcases List.mem_cons.mp hd with rfl | hd'
          · exact Bool.not_eq_true _ ▸ Bool.of_not_eq_true hc
          · have := List.mem_takeWhile_imp hd'
            simp only [Bool.not_eq_true'] at this
            exact this
        · refine ih (cs.dropWhile (fun d => !isWsB d)) ?_ t ht'
          have h1 : (cs.dropWhile (fun d => !isWsB d)).length ≤ cs.length :=
            List.Sublist.length_le (List.dropWhile_sublist _)
          simp at hl
          omega

/-- Char-level `" ".join`. -/
def joinTokenChars : List (List Char) → List Char
  | [] => []
  | [t] => t
  | t :: ts => t ++ ' ' :: joinTokenChars ts

/-- `pyJoinSpace` agrees with the char-level join. -/
theorem pyJoinSpace_toList (w : List String) :
    (pyJoinSpace w).toList = joinTokenChars (w.map String.toList) := by
  have happ : ∀ a b : String, (a ++ b).toList = a.toList ++ b.toList :=
    fun a b => String.data_append a b
  induction w with
  | nil => rfl
  | cons t ts ih =>
    cases ts with
    | nil => rfl
    | cons t' ts' =>
      show (t ++ " " ++ pyJoinSpace (t' :: ts')).toList = _
      rw [happ, happ, ih]
      simp [joinTokenChars, List.append_assoc]

/-- Splitting a single non-empty whitespace-free token returns it alone. -/
theorem splitWsChars_single (t : List Char) (hne : t ≠ [])
    (hws : ∀ c ∈ t, isWsB c = false) : splitWsChars t = [t] := by
  cases t with
  | nil => exact absurd rfl hne
  | cons c cs =>
    rw [splitWsChars,
      if_neg (by rw [hws c (List.mem_cons_self c cs)]; simp)]
    rw [takeWhile_eq_self_of_all _ cs
      (fun d hd => by rw [Bool.not_eq_true', hws d (List.mem_cons_of_mem c hd)]),
      dropWhile_eq_nil_of_all _ cs
      (fun d hd => by rw [Bool.not_eq_true', hws d (List.mem_cons_of_mem c hd)])]
    rw [splitWsChars]

/-- Splitting `token ++ ' ' :: rest` peels off the token. -/
theorem splitWsChars_append (t : List Char) (r : List Char) (hne : t ≠ [])
    (hws : ∀ c ∈ t, isWsB c = false) :
    splitWsChars (t ++ ' ' :: r) = t :: splitWsChars r := by
  cases t with
  | nil => exact absurd rfl hne
  | cons c cs =>
    rw [List.cons_append, splitWsChars,
      if_neg (by rw [hws c (List.mem_cons_self c cs)]; simp)]
    rw [List.takeWhile_append_of_pos
      (fun d hd => by rw [Bool.not_eq_true', hws d (List.mem_cons_of_mem c hd)]),
      List.dropWhile_append_of_pos
      (fun d hd => by rw [Bool.not_eq_true', hws d (List.mem_cons_of_mem c hd)])]
    rw [show List.takeWhile (fun d => !isWsB d) (' ' :: r) = [] from rfl,
      show List.dropWhile (fun d => !isWsB d) (' ' :: r) = ' ' :: r from rfl]
    rw [show splitWsChars (' ' :: r) = splitWsChars r from by rw [splitWsChars]; rfl]
    simp

/-- Round trip at the char level: splitting the join of non-empty
whitespace-free tokens recovers the tokens. -/
theorem splitWsChars_joinTokenChars : ∀ (tls : List (List Char)),
    (∀ t ∈ tls, t ≠ [] ∧ ∀ c ∈ t, isWsB c = false) →
    splitWsChars (joinTokenChars tls) = tls := by
  intro tls
  induction tls with
  | nil =>
    intro _
    rw [show joinTokenChars [] = ([] : List Char) from rfl, splitWsChars]
  | cons t ts ih =>
    intro h
    cases ts with
    | nil =>
      have ht := h t (List.mem_cons_self t [])
      exact splitWsChars_single t ht.1 ht.2
    | cons t' ts' =>
      have ht := h t (List.mem_cons_self t _)
      rw [show joinTokenChars (t :: t' :: ts') = t ++ ' ' :: joinTokenChars (t' :: ts')
        from rfl]
      rw [splitWsChars_append t _ ht.1 ht.2]
      rw [ih (fun u hu => h u (List.mem_cons_of_mem t hu))]

/-- Round trip at the string level: `text.split()` of `" ".join(tokens)`
recovers the tokens. -/
theorem pySplit_pyJoinSpace (w : List String)
    (hw : ∀ t ∈ w, t.toList ≠ [] ∧ ∀ c ∈ t.toList, isWsB c = false) :
    pySplit (pyJoinSpace w) = w := by
  unfold pySplit
  rw [pyJoinSpace_toList w]
  rw [splitWsChars_joinTokenChars (w.map String.toList)
    (by intro t ht
        rcases List.mem_map.mp ht with ⟨u, hu, rfl⟩
        exact hw u hu)]
  rw [List.map_map]
  rw [show (List.asString ∘ String.toList) = id from funext (fun s => rfl)]
  exact List.map_id w

/-- The tokens of `pySplit` are non-empty and whitespace-free. -/
theorem pySplit_tokens (s : String) :
    ∀ t ∈ pySplit s, t.toList ≠ [] ∧ ∀ c ∈ t.toList, isWsB c = false := by
  intro t ht
  unfold pySplit at ht
  rcases List.mem_map.mp ht with ⟨l, hl, rfl⟩
  exact splitWsChars_tokens s.toList.length s.toList (le_refl _) l hl

/-- The token sequence of one chunk, recovered by re-splitting its
space-joined content. -/
def chunkTokens (c : Chunk) : List String := pySplit c.content

/-- Concatenate, for each chunk in order, its first `step` tokens — all its
tokens for the last chunk. -/
def reassembleChunks (step : Nat) : List Chunk → List String
  | [] => []
  | [c] => chunkTokens c
  | c :: cs => (chunkTokens c).take step ++ reassembleChunks step cs

theorem reassembleChunks_cons (step : Nat) (c : Chunk) (cs : List Chunk)
    (h : cs ≠ []) :
    reassembleChunks step (c :: cs) = (chunkTokens c).take step ++ reassembleChunks step cs := by
  cases cs with
  | nil => exact absurd rfl h
  | cons c' cs' => rfl

/-- The number of emitted windows is `ceil(tokenCount / step)`. -/
theorem sizeLoop_length (maxT step : Nat) (hstep : 1 ≤ step) :
    ∀ (n : Nat) (ts : List String), ts.length ≤ n → ∀ idx : Nat,
      (sizeLoop maxT step ts idx).length = (ts.length + step - 1) / step := by
  intro n
  induction n with
  | zero =>
    intro ts hts idx
    have h0 : ts = [] := List.eq_nil_of_length_eq_zero (Nat.le_zero.mp hts)
    subst h0
    rw [sizeLoop, if_pos rfl]
    simp only [List.length_nil]
    rw [Nat.div_eq_of_lt (show 0 + step - 1 < step from by omega)]
  | succ n ih =>
    intro ts hts idx
    by_cases hne : ts = []
    · subst hne
      rw [sizeLoop, if_pos rfl]
      simp only [List.length_nil]
      rw [Nat.div_eq_of_lt (show 0 + step - 1 < step from by omega)]
    · rw [sizeLoop, if_neg hne]
      have hlen : 0 < ts.length := List.length_pos.mpr hne
      rw [List.length_cons, Nat.max_eq_right hstep]
      rw [ih (ts.drop step) (by simp [List.length_drop]; omega) (idx + 1)]
      rw [List.length_drop]
      rw [show ts.length + step - 1 = (ts.length - 1) + step from by omega,
        Nat.add_div_right _ (by omega)]
      by_cases hls : ts.length ≤ step
      · rw [show ts.length - step + step - 1 = step - 1 from by omega,
          Nat.div_eq_of_lt (by omega),
          Nat.div_eq_of_lt (show ts.length - 1 < step from by omega)]
      · rw [show ts.length - step + step - 1 = ts.length - 1 from by omega]

theorem sizeLoop_ne_nil (maxT step : Nat) (ts : List String) (idx : Nat)
    (h : ts ≠ []) : sizeLoop maxT step ts idx ≠ [] := by
  rw [sizeLoop, if_neg h]
  simp

/-- Reassembling the emitted windows with the overlap removed recovers the
original token sequence. -/
theorem sizeLoop_reassemble (maxT step : Nat) (hstep : 1 ≤ step) (hsm : step ≤ maxT) :
    ∀ (n : Nat) (ts : List String), ts.length ≤ n →
      (∀ t ∈ ts, t.toList ≠ [] ∧ ∀ c ∈ t.toList, isWsB c = false) → ∀ idx : Nat,
      reassembleChunks step (sizeLoop maxT step ts idx) = ts := by
  intro n
  induction n with
  | zero =>
    intro ts hts hP idx
    have h0 : ts = [] := List.eq_nil_of_length_eq_zero (Nat.le_zero.mp hts)
    subst h0
    rw [sizeLoop, if_pos rfl]
    rfl
  | succ n ih =>
    intro ts hts hP idx
    by_cases hne : ts = []
    · subst hne
      rw [sizeLoop, if_pos rfl]
      rfl
    · rw [sizeLoop, if_neg hne, Nat.max_eq_right hstep]
      have hct : chunkTokens
          { heading := chunkTitle (pyJoinSpace (ts.take maxT)) idx
            content := pyJoinSpace (ts.take maxT) } = ts.take maxT := by
        unfold chunkTokens
        exact pySplit_pyJoinSpace _ (fun t ht => hP t (List.take_subset _ _ ht))
      by_cases hrest : ts.drop step = []
      · rw [hrest, sizeLoop, if_pos rfl]
        rw [show ∀ c : Chunk, reassembleChunks step [c] = chunkTokens c from fun _ => rfl]
        rw [hct]
        have hlen : ts.length ≤ step := by
          have := congrArg List.length hrest
          simp [List.length_drop] at this
          omega
        exact List.take_of_length_le (by omega)
      · rw [reassembleChunks_cons step _ _ (sizeLoop_ne_nil maxT step _ _ hrest)]
        rw [hct]
        rw [ih (ts.drop step) (by simp [List.length_drop]; omega)
          (fun t ht => hP t (List.drop_subset _ _ ht)) (idx + 1)]
        rw [List.take_take, Nat.min_eq_left hsm]
        exact List.take_append_drop step ts

/-- C6: for every non-empty text under the fixed-size strategy with
`overlap < maxTokens`, the number of chunks is
`ceil(tokenCount / (maxTokens - overlap))`, and concatenating each chunk's
first `maxTokens - overlap` tokens (all tokens of the last chunk)
reconstructs exactly the original whitespace tokenization. -/
theorem c6_fixed_size_chunking (text : String) (maxT overlap : Nat)
    (h1 : overlap < maxT) (h2 : text ≠ "") :
    (chunk_by_size text maxT overlap).length =
      ((pySplit text).length + (maxT - overlap) - 1) / (maxT - overlap) ∧
    reassembleChunks (maxT - overlap) (chunk_by_size text maxT overlap) =
      pySplit text := by
  have hstep : 1 ≤ maxT - overlap := by omega
  have hsm : maxT - overlap ≤ maxT := by omega
  constructor
  · exact sizeLoop_length maxT (maxT - overlap) hstep (pySplit text).length
      (pySplit text) (le_refl _) 0
  · exact sizeLoop_reassemble maxT (maxT - overlap) hstep hsm (pySplit text).length
      (pySplit text) (le_refl _) (pySplit_tokens text) 0

/-- Witness for `c6_fixed_size_chunking` at `"a b c"` with
`maxTokens = 2`, `overlap = 1`. -/
theorem c6_witness :
    ((1 : Nat) < 2 ∧ ("a b c" : String) ≠ "") ∧
    ((chunk_by_size "a b c" 2 1).length =
      ((pySplit "a b c").length + (2 - 1) - 1) / (2 - 1) ∧
    reassembleChunks (2 - 1) (chunk_by_size "a b c" 2 1) = pySplit "a b c") :=
  ⟨⟨by decide, by decide⟩, c6_fixed_size_chunking "a b c" 2 1 (by decide) (by decide)⟩
